import Mathlib

/-!
Verification of the gold-market front-end (frontend/js/api.js and js/app.js).

The JavaScript is embedded shallowly:
* JSON values become the inductive type `Json`; JS property access becomes
  `jget` (returning `none` for `undefined`); JS truthiness becomes `jtruthy`.
* The stateless request client (class `API`) becomes pure functions that
  return the `Request` that would be sent, or process an `HttpResponse`.
* The retry loop of `API.requestWithRetry` becomes the structural recursion
  `runRetryAux`, parameterised by the outcome of each attempt; it records the
  final result, the number of attempts performed and the delays slept.
* The view controller (class `GoldMarketApp`) becomes explicit state passing
  on `AppState`; DOM writes become an event list (`UIEvent`), and each
  awaited network outcome becomes an explicit `Except` parameter.
-/

/-- JSON values, as produced by parsing a response body. -/
inductive Json where
  | null
  | bool (b : Bool)
  | num (n : Int)
  | str (s : String)
  | arr (xs : List Json)
  | obj (fields : List (String × Json))

/-- JS property access `j[k]`: `none` models `undefined` (absent field, or
access on a primitive); access on `null` itself throws in JS and is handled
explicitly at use sites. -/
def jget : Json → String → Option Json
  | Json.obj fields, k => fields.lookup k
  | _, _ => none

/-- JS truthiness of a JSON value. -/
def jtruthy : Json → Bool
  | Json.null => false
  | Json.bool b => b
  | Json.num n => n != 0
  | Json.str s => s != ""
  | Json.arr _ => true
  | Json.obj _ => true

/-- Truthiness of a possibly-undefined value (`undefined` is falsy). -/
def otruthy : Option Json → Bool
  | some j => jtruthy j
  | none => false

/-- JS `x || d`: the left operand when truthy, otherwise the default. -/
def jsOr (x : Option Json) (d : Json) : Json :=
  match x with
  | some j => if jtruthy j then j else d
  | none => d

/-- JS `String.prototype.startsWith`, evaluated on the character lists. -/
def jsStartsWith (s pre : String) : Bool :=
  pre.data.isPrefixOf s.data

/-- `API_CONFIG.API_PREFIX`. -/
def apiBasePath : String := "/api"

/-- `API_CONFIG.RETRY_ATTEMPTS`. -/
def RETRY_ATTEMPTS : Nat := 3

/-- `API_CONFIG.RETRY_DELAY` in milliseconds. -/
def RETRY_DELAY : Nat := 1000

/-- The page environment visible to the request client: the document cookie
string and, when the `csrf-token` meta tag is present, its content. -/
structure Env where
  cookie : String
  metaCSRF : Option String

/-- A JS error value.  API errors built by `handleResponse` fill in `status`,
`code` and `data`; other thrown values (network failures, type errors) leave
them absent. -/
structure JsError where
  message : Json
  status : Option Nat
  code : Option Json
  data : Option Json

/-- The `fetch` response as seen by `handleResponse`: `body = none` models a
body that fails to parse as JSON. -/
structure HttpResponse where
  ok : Bool
  status : Nat
  body : Option Json

/-- An HTTP request as assembled by the verb helpers. -/
structure Request where
  method : String
  url : String
  headers : List (String × String)
  query : Option Json
  body : Option Json

namespace API

/-- `API.buildUrl`: prepend the origin and the fixed path, adding a leading
slash to the endpoint exactly when it lacks one. -/
def buildUrl (origin endpoint : String) : String :=
  let cleanEndpoint := if jsStartsWith endpoint "/" then endpoint else "/" ++ endpoint
  origin ++ apiBasePath ++ cleanEndpoint

/-- The literal `csrf_token=` searched for by the cookie regex. -/
def csrfPat : List Char := "csrf_token=".data

/-- The regex match `/csrf_token=([^;]+)/` on the cookie string: at each start
position, the literal must occur followed by at least one non-semicolon
character; the capture is the maximal run of non-semicolon characters. -/
def scanCsrf : List Char → Option (List Char)
  | [] => none
  | c :: rest =>
    if csrfPat.isPrefixOf (c :: rest) then
      if ((c :: rest).drop csrfPat.length).takeWhile (fun ch => ch != ';') = [] then
        scanCsrf rest
      else some (((c :: rest).drop csrfPat.length).takeWhile (fun ch => ch != ';'))
    else scanCsrf rest

/-- `API.getCSRFToken`: the cookie match first, else the meta tag content,
else null. -/
def getCSRFToken (env : Env) : Option String :=
  match scanCsrf env.cookie.data with
  | some tok => some (String.mk tok)
  | none => env.metaCSRF

/-- `API.getHeaders`: JSON content negotiation headers, plus the CSRF token
header when requested and the discovered token is truthy (non-empty). -/
def getHeaders (env : Env) (includeCSRF : Bool) : List (String × String) :=
  let headers := [("Content-Type", "application/json"), ("Accept", "application/json")]
  if includeCSRF then
    match getCSRFToken env with
    | some t => if t = "" then headers else headers ++ [("X-CSRF-Token", t)]
    | none => headers
  else headers

/-- `API.handleResponse`: parse failure downgrades the payload to null; a
non-ok status raises a structured error; success returns the payload. -/
def handleResponse (r : HttpResponse) : Except JsError Json :=
  let data := r.body.getD Json.null
  if r.ok then Except.ok data
  else Except.error
    { message := jsOr (jget data "message") (Json.str ("HTTP " ++ toString r.status))
      status := some r.status
      code := some (jsOr (jget data "code") (Json.str "UNKNOWN_ERROR"))
      data := some data }

/-- `API.get(endpoint, options)`: no CSRF header; query string serialised from
`options.params` when present. -/
def get (env : Env) (origin endpoint : String) (options : Json) : Request :=
  { method := "GET"
    url := buildUrl origin endpoint
    headers := getHeaders env false
    query := jget options "params"
    body := none }

/-- `API.post(endpoint, data, options)`: CSRF header requested; the JSON body
is the data argument.  The options parameter is accepted but unused. -/
def post (env : Env) (origin endpoint : String) (data options : Json) : Request :=
  { method := "POST"
    url := buildUrl origin endpoint
    headers := getHeaders env true
    query := none
    body := some data }

/-- `API.put(endpoint, data, options)`. -/
def put (env : Env) (origin endpoint : String) (data options : Json) : Request :=
  { method := "PUT"
    url := buildUrl origin endpoint
    headers := getHeaders env true
    query := none
    body := some data }

/-- `API.delete(endpoint, options)`: the options parameter is accepted but
unused by the function body. -/
def delete (env : Env) (origin endpoint : String) (options : Json) : Request :=
  { method := "DELETE"
    url := buildUrl origin endpoint
    headers := getHeaders env true
    query := none
    body := none }

end API

/-- The verbs `requestWithRetry` can dispatch through `this[method]`. -/
inductive Method where
  | get
  | post
  | put
  | delete

/-- The JS call `this[method](endpoint, data, options)`: `get` and `delete`
are declared with only two parameters, so `data` lands in their `options`
parameter position and the third argument is dropped. -/
def dispatchRequest (env : Env) (origin : String) (m : Method)
    (endpoint : String) (data options : Json) : Request :=
  match m with
  | Method.get => API.get env origin endpoint data
  | Method.delete => API.delete env origin endpoint data
  | Method.post => API.post env origin endpoint data options
  | Method.put => API.put env origin endpoint data options

/-- The thrown value when the loop body never ran and `throw lastError`
re-raises an undefined `lastError`. -/
def undefinedError : JsError :=
  { message := Json.null, status := none, code := none, data := none }

/-- `error.status >= 400 && error.status < 500`; comparisons against an
undefined status are false in JS. -/
def isClientError (e : JsError) : Bool :=
  match e.status with
  | some s => decide (400 ≤ s ∧ s < 500)
  | none => false

/-- `options.retryAttempts || API_CONFIG.RETRY_ATTEMPTS` (numeric values; a
missing or zero value falls back to the default of 3). -/
def maxAttemptsOf (options : Json) : Nat :=
  match jget options "retryAttempts" with
  | some (Json.num n) => if n = 0 then RETRY_ATTEMPTS else n.toNat
  | _ => RETRY_ATTEMPTS

/-- Observable outcome of one `requestWithRetry` call: the settled result,
how many attempts ran, and the delays slept between attempts, in order. -/
structure RetryTrace where
  result : Except JsError Json
  attemptsMade : Nat
  delays : List Nat

/-- The retry loop, with `o n` the outcome of attempt `n`, `attempt` the
current attempt number and the final argument the attempts remaining
(including the current one).  A client error is rethrown at once; otherwise
the loop sleeps `base * attempt` and retries while attempts remain, and
finally re-raises the last observed error. -/
def runRetryAux (o : Nat → Except JsError Json) (base : Nat)
    (lastErr : Option JsError) (attempt : Nat) : Nat → RetryTrace
  | 0 =>
    { result := Except.error (lastErr.getD undefinedError)
      attemptsMade := attempt - 1
      delays := [] }
  | r + 1 =>
    match o attempt with
    | Except.ok v => { result := Except.ok v, attemptsMade := attempt, delays := [] }
    | Except.error e =>
      if isClientError e then
        { result := Except.error e, attemptsMade := attempt, delays := [] }
      else if r = 0 then
        { result := Except.error e, attemptsMade := attempt, delays := [] }
      else
        let rest := runRetryAux o base (some e) (attempt + 1) r
        { result := rest.result
          attemptsMade := rest.attemptsMade
          delays := base * attempt :: rest.delays }

/-- `API.requestWithRetry` with the attempt outcomes abstracted: attempts are
numbered from 1 up to the configured ceiling. -/
def requestWithRetry (options : Json) (o : Nat → Except JsError Json) : RetryTrace :=
  runRetryAux o RETRY_DELAY none 1 (maxAttemptsOf options)

/-- `API.requestWithRetry(method, endpoint, data, options)` end to end: the
request is assembled by the dispatched verb and `net` gives the network
outcome of each attempt at sending it. -/
def requestWithRetryFull (env : Env) (origin : String)
    (net : Request → Nat → Except JsError Json) (m : Method)
    (endpoint : String) (data options : Json) : RetryTrace :=
  runRetryAux (net (dispatchRequest env origin m endpoint data options))
    RETRY_DELAY none 1 (maxAttemptsOf options)

/-- The expected delay list `[base * attempt, base * (attempt + 1), ...]` of
length `d`. -/
def delaysFrom (base attempt : Nat) : Nat → List Nat
  | 0 => []
  | d + 1 => base * attempt :: delaysFrom base (attempt + 1) d

/-- Attempts `a, a + 1, ..., a + n - 1` all fail with a non-client error. -/
def failsNonClient (o : Nat → Except JsError Json) (a n : Nat) : Prop :=
  ∀ j, a ≤ j → j < a + n → ∃ e, o j = Except.error e ∧ isClientError e = false

/-- In-memory state of `GoldMarketApp`: the four data snapshots and the two
timer handles.  Snapshot fields are `Option Json` because JS assignment of a
missing `response.data` stores `undefined`. -/
structure AppState where
  goldPrices : Option Json
  currencyRates : Option Json
  storeInfo : Option Json
  marketStatus : Option Json
  updateInterval : Option Nat
  clockInterval : Option Nat

/-- The constructor-time field values of `GoldMarketApp`. -/
def initialState : AppState :=
  { goldPrices := some (Json.arr [])
    currencyRates := some (Json.arr [])
    storeInfo := some (Json.obj [])
    marketStatus := some (Json.obj [("isOpen", Json.bool false)])
    updateInterval := none
    clockInterval := none }

/-- A DOM write performed by the view controller, with the snapshot it was
rendered from. -/
inductive UIEvent where
  | renderGold (prices : Option Json)
  | renderCurrency (rates : Option Json)
  | renderStore (info : Option Json)
  | renderMarket (status : Option Json)
  | showErrorBanner (msg : String)
  | updateClockDisplay

/-- The message passed to `showError` when `init` fails. -/
def initFailureMsg : String := "Failed to initialize application"

/-- A thrown `TypeError` (reading a property of `null`). -/
def typeError : JsError :=
  { message := Json.str "TypeError", status := none, code := none, data := none }

namespace GoldMarketApp

/-- `updateStoreInfo`: re-render the store region from the stored snapshot. -/
def updateStoreInfo (s : AppState) : AppState × List UIEvent :=
  (s, [UIEvent.renderStore s.storeInfo])

/-- `updateMarketStatus`: re-render the market indicator from the stored
snapshot.  No fetch is performed here. -/
def updateMarketStatus (s : AppState) : AppState × List UIEvent :=
  (s, [UIEvent.renderMarket s.marketStatus])

/-- `fetchGoldPrices`, with `outcome` the settled promise of
`GoldAPI.getAllPrices()`.  A rejection is caught and only logged; a null
payload makes `response.success` throw a TypeError, caught by the same
handler; a falsy `success` flag leaves everything untouched; a truthy one
replaces the snapshot and re-renders the gold region. -/
def fetchGoldPrices (s : AppState) (outcome : Except JsError Json) : AppState × List UIEvent :=
  match outcome with
  | Except.error _ => (s, [])
  | Except.ok resp =>
    match resp with
    | Json.null => (s, [])
    | _ =>
      if otruthy (jget resp "success") then
        ({ s with goldPrices := jget resp "data" }, [UIEvent.renderGold (jget resp "data")])
      else (s, [])

/-- `fetchCurrencyRates`, mirror image of `fetchGoldPrices`. -/
def fetchCurrencyRates (s : AppState) (outcome : Except JsError Json) : AppState × List UIEvent :=
  match outcome with
  | Except.error _ => (s, [])
  | Except.ok resp =>
    match resp with
    | Json.null => (s, [])
    | _ =>
      if otruthy (jget resp "success") then
        ({ s with currencyRates := jget resp "data" }, [UIEvent.renderCurrency (jget resp "data")])
      else (s, [])

/-- The four awaited outcomes consumed by `fetchInitialData`, in order. -/
structure InitOutcomes where
  store : Except JsError Json
  market : Except JsError Json
  gold : Except JsError Json
  currency : Except JsError Json

/-- The `if (storeResponse.success)` block of `fetchInitialData`: replace the
store snapshot and mirror it into the DOM. -/
def applyStore (s : AppState) (storeResp : Json) : AppState × List UIEvent :=
  if otruthy (jget storeResp "success") then
    let s1 := { s with storeInfo := jget storeResp "data" }
    (s1, (updateStoreInfo s1).2)
  else (s, [])

/-- The `if (marketResponse.success)` block of `fetchInitialData`: replace
the market snapshot and re-render the indicator. -/
def applyMarket (s : AppState) (marketResp : Json) : AppState × List UIEvent :=
  if otruthy (jget marketResp "success") then
    let s2 := { s with marketStatus := jget marketResp "data" }
    (s2, (updateMarketStatus s2).2)
  else (s, [])

/-- `fetchInitialData`: store info and market status are fetched directly in
the `try` block, so their rejections (and the TypeError from reading
`.success` of a null payload) are re-thrown by the catch; the gold and
currency steps delegate to helpers that swallow their own errors.  Returns
the state, the DOM events emitted before returning or throwing, and the
thrown error if any. -/
def fetchInitialData (s : AppState) (oc : InitOutcomes) :
    AppState × List UIEvent × Option JsError :=
  match oc.store with
  | Except.error e => (s, [], some e)
  | Except.ok Json.null => (s, [], some typeError)
  | Except.ok storeResp =>
    let step1 := applyStore s storeResp
    match oc.market with
    | Except.error e => (step1.1, step1.2, some e)
    | Except.ok Json.null => (step1.1, step1.2, some typeError)
    | Except.ok marketResp =>
      let step2 := applyMarket step1.1 marketResp
      let step3 := fetchGoldPrices step2.1 oc.gold
      let step4 := fetchCurrencyRates step3.1 oc.currency
      (step4.1, step1.2 ++ step2.2 ++ step3.2 ++ step4.2, none)

/-- `init`: start the clock, fetch the initial data, then either render both
grids and start the auto-update timer, or (when `fetchInitialData` threw)
show the blocking error banner. -/
def init (s : AppState) (clockId updId : Nat) (oc : InitOutcomes) : AppState × List UIEvent :=
  let s1 := { s with clockInterval := some clockId }
  let fetched := fetchInitialData s1 oc
  match fetched.2.2 with
  | some _ =>
    (fetched.1, UIEvent.updateClockDisplay :: fetched.2.1 ++ [UIEvent.showErrorBanner initFailureMsg])
  | none =>
    ({ fetched.1 with updateInterval := some updId },
      UIEvent.updateClockDisplay :: fetched.2.1 ++
        [UIEvent.renderGold fetched.1.goldPrices, UIEvent.renderCurrency fetched.1.currencyRates])

/-- One tick of the `startAutoUpdate` interval callback: re-fetch gold prices
and currency rates (each with its own settled outcome) and call
`updateMarketStatus`, which only re-renders the stored snapshot. -/
def refreshTick (s : AppState) (goldOutcome currencyOutcome : Except JsError Json) :
    AppState × List UIEvent :=
  let step1 := fetchGoldPrices s goldOutcome
  let step2 := fetchCurrencyRates step1.1 currencyOutcome
  let step3 := updateMarketStatus step2.1
  (step3.1, step1.2 ++ step2.2 ++ step3.2)

/-- `stopAutoUpdate`: clear each timer handle that is set. -/
def stopAutoUpdate (s : AppState) : AppState :=
  let s1 :=
    match s.updateInterval with
    | some _ => { s with updateInterval := none }
    | none => s
  match s1.clockInterval with
  | some _ => { s1 with clockInterval := none }
  | none => s1

end GoldMarketApp

theorem delaysFrom_get (d : Nat) :
    ∀ (base attempt i : Nat) (h : i < (delaysFrom base attempt d).length),
    (delaysFrom base attempt d).get ⟨i, h⟩ = base * (attempt + i) := by
  induction d with
  | zero =>
    intro base attempt i h
    simp [delaysFrom] at h
  | succ d ih =>
    intro base attempt i h
    cases i with
    | zero => simp [delaysFrom]
    | succ i =>
      have := ih base (attempt + 1) i
      simp only [delaysFrom, List.get] at this ⊢
      rw [this (by simpa [delaysFrom] using h)]
      congr 1
      omega

theorem runRetryAux_step
    (o : Nat → Except JsError Json) (base : Nat) (le : Option JsError)
    (attempt r : Nat) (e0 : JsError)
    (he0 : o attempt = Except.error e0) (hnc0 : isClientError e0 = false)
    (hr : r ≠ 0) :
    runRetryAux o base le attempt (r + 1) =
      { result := (runRetryAux o base (some e0) (attempt + 1) r).result
        attemptsMade := (runRetryAux o base (some e0) (attempt + 1) r).attemptsMade
        delays := base * attempt :: (runRetryAux o base (some e0) (attempt + 1) r).delays } := by
  obtain ⟨r2, rfl⟩ : ∃ r2, r = r2 + 1 := ⟨r - 1, by omega⟩
  simp [runRetryAux, he0, hnc0]

theorem runRetryAux_client
    (d : Nat) (o : Nat → Except JsError Json) (base : Nat) (le : Option JsError)
    (attempt r : Nat) (e : JsError)
    (hpre : failsNonClient o attempt d) (hend : o (attempt + d) = Except.error e)
    (hce : isClientError e = true) (hd : d < r + 1) :
    runRetryAux o base le attempt (r + 1) =
      { result := Except.error e, attemptsMade := attempt + d,
        delays := delaysFrom base attempt d } := by
  induction d generalizing le attempt r with
  | zero =>
    rw [Nat.add_zero] at hend
    simp [runRetryAux, hend, hce, delaysFrom]
  | succ d ih =>
    obtain ⟨e0, he0, hnc0⟩ := hpre attempt (Nat.le_refl _) (by omega)
    obtain ⟨r', rfl⟩ : ∃ r', r = r' + 1 := ⟨r - 1, by omega⟩
    have hrec := ih (some e0) (attempt + 1) r'
      (fun j h1 h2 => hpre j (by omega) (by omega))
      (by rw [show attempt + 1 + d = attempt + (d + 1) from by omega]; exact hend)
      (by omega)
    rw [runRetryAux_step o base le attempt (r' + 1) e0 he0 hnc0 (Nat.succ_ne_zero r'), hrec]
    simp only [delaysFrom, RetryTrace.mk.injEq, and_true, true_and]
    omega

theorem runRetryAux_ok
    (d : Nat) (o : Nat → Except JsError Json) (base : Nat) (le : Option JsError)
    (attempt r : Nat) (v : Json)
    (hpre : failsNonClient o attempt d) (hend : o (attempt + d) = Except.ok v)
    (hd : d < r + 1) :
    runRetryAux o base le attempt (r + 1) =
      { result := Except.ok v, attemptsMade := attempt + d,
        delays := delaysFrom base attempt d } := by
  induction d generalizing le attempt r with
  | zero =>
    rw [Nat.add_zero] at hend
    simp [runRetryAux, hend, delaysFrom]
  | succ d ih =>
    obtain ⟨e0, he0, hnc0⟩ := hpre attempt (Nat.le_refl _) (by omega)
    obtain ⟨r', rfl⟩ : ∃ r', r = r' + 1 := ⟨r - 1, by omega⟩
    have hrec := ih (some e0) (attempt + 1) r'
      (fun j h1 h2 => hpre j (by omega) (by omega))
      (by rw [show attempt + 1 + d = attempt + (d + 1) from by omega]; exact hend)
      (by omega)
    rw [runRetryAux_step o base le attempt (r' + 1) e0 he0 hnc0 (Nat.succ_ne_zero r'), hrec]
    simp only [delaysFrom, RetryTrace.mk.injEq, and_true, true_and]
    omega

theorem runRetryAux_exhaust
    (d : Nat) (o : Nat → Except JsError Json) (base : Nat) (le : Option JsError)
    (attempt : Nat) (e : JsError)
    (hpre : failsNonClient o attempt d) (hend : o (attempt + d) = Except.error e)
    (hnc : isClientError e = false) :
    runRetryAux o base le attempt (d + 1) =
      { result := Except.error e, attemptsMade := attempt + d,
        delays := delaysFrom base attempt d } := by
  induction d generalizing le attempt with
  | zero =>
    rw [Nat.add_zero] at hend
    simp [runRetryAux, hend, hnc, delaysFrom]
  | succ d ih =>
    obtain ⟨e0, he0, hnc0⟩ := hpre attempt (Nat.le_refl _) (by omega)
    have hrec := ih (some e0) (attempt + 1)
      (fun j h1 h2 => hpre j (by omega) (by omega))
      (by rw [show attempt + 1 + d = attempt + (d + 1) from by omega]; exact hend)
    rw [runRetryAux_step o base le attempt (d + 1) e0 he0 hnc0 (Nat.succ_ne_zero d), hrec]
    simp only [delaysFrom, RetryTrace.mk.injEq, and_true, true_and]
    omega

/-- C2: `requestWithRetry` retries an attempt exactly when the raised error
has no status in [400, 500): an attempt failing with a client-error status
(after any run of retried non-client failures) stops the loop at once and
re-raises that error, while a run in which every attempt up to the ceiling
fails with a non-client error (network failure or 5xx) performs all attempts
and re-raises the last observed error. -/
theorem requestWithRetry_client_and_exhaust
    (o : Nat → Except JsError Json) (options : Json) (k : Nat) (e : JsError) :
    (1 ≤ k → k ≤ maxAttemptsOf options → failsNonClient o 1 (k - 1) →
      o k = Except.error e → isClientError e = true →
      requestWithRetry options o =
        { result := Except.error e, attemptsMade := k,
          delays := delaysFrom RETRY_DELAY 1 (k - 1) }) ∧
    (1 ≤ maxAttemptsOf options →
      failsNonClient o 1 (maxAttemptsOf options - 1) →
      o (maxAttemptsOf options) = Except.error e → isClientError e = false →
      requestWithRetry options o =
        { result := Except.error e, attemptsMade := maxAttemptsOf options,
          delays := delaysFrom RETRY_DELAY 1 (maxAttemptsOf options - 1) }) := by
  constructor
  · intro hk1 hkM hpre hk hce
    unfold requestWithRetry
    obtain ⟨M1, hM⟩ : ∃ M1, maxAttemptsOf options = M1 + 1 :=
      ⟨maxAttemptsOf options - 1, by omega⟩
    rw [hM]
    have hrun := runRetryAux_client (k - 1) o RETRY_DELAY none 1 M1 e hpre
      (by rw [show 1 + (k - 1) = k from by omega]; exact hk) hce (by omega)
    rw [hrun]
    simp only [RetryTrace.mk.injEq, and_true, true_and]
    omega
  · intro hM1 hpre hend hnc
    unfold requestWithRetry
    obtain ⟨M1, hM⟩ : ∃ M1, maxAttemptsOf options = M1 + 1 :=
      ⟨maxAttemptsOf options - 1, by omega⟩
    rw [hM] at hpre hend ⊢
    rw [Nat.add_sub_cancel] at hpre ⊢
    have hrun := runRetryAux_exhaust M1 o RETRY_DELAY none 1 e hpre
      (by rw [show 1 + M1 = M1 + 1 from by omega]; exact hend) hnc
    rw [hrun]
    simp only [RetryTrace.mk.injEq, and_true, true_and]
    omega

/-- Witness for C2: a 404 response on the first attempt is rejected after
exactly one attempt, with no delays slept. -/
def err404 : JsError := { message := Json.null, status := some 404, code := none, data := none }

def o404 : Nat → Except JsError Json := fun _ => Except.error err404

theorem requestWithRetry_client_and_exhaust_witness :
    requestWithRetry Json.null o404 =
      { result := Except.error err404, attemptsMade := 1, delays := [] } :=
  (requestWithRetry_client_and_exhaust o404 Json.null 1 err404).1
    (Nat.le_refl 1) (by decide) (fun j h1 h2 => absurd h2 (by omega))
    rfl (by decide)

/-- C3: the delays slept by `requestWithRetry` follow linear backoff with the
default base of 1000ms: a run whose first `d` attempts fail with non-client
errors and then succeeds performs `d + 1` attempts with delay list
`delaysFrom 1000 1 d`, whose element before the n-th retry is `1000 * n`. -/
theorem requestWithRetry_linear_backoff
    (o : Nat → Except JsError Json) (options : Json) (d : Nat) (v : Json) :
    (d < maxAttemptsOf options → failsNonClient o 1 d → o (d + 1) = Except.ok v →
      requestWithRetry options o =
        { result := Except.ok v, attemptsMade := d + 1,
          delays := delaysFrom RETRY_DELAY 1 d }) ∧
    (∀ i (h : i < (delaysFrom RETRY_DELAY 1 d).length),
      (delaysFrom RETRY_DELAY 1 d).get ⟨i, h⟩ = RETRY_DELAY * (i + 1)) := by
  constructor
  · intro hd hpre hok
    unfold requestWithRetry
    obtain ⟨M1, hM⟩ : ∃ M1, maxAttemptsOf options = M1 + 1 :=
      ⟨maxAttemptsOf options - 1, by omega⟩
    rw [hM]
    have hrun := runRetryAux_ok d o RETRY_DELAY none 1 M1 v hpre
      (by rw [show 1 + d = d + 1 from by omega]; exact hok) (by omega)
    rw [hrun]
    simp only [RetryTrace.mk.injEq, and_true, true_and]
    omega
  · intro i h
    rw [delaysFrom_get]
    congr 1
    omega

/-- Witness for C3: two 503 failures then success on attempt 3, with the
default ceiling of 3 and delays of exactly 1000ms then 2000ms. -/
def err503 : JsError := { message := Json.null, status := some 503, code := none, data := none }

def okPayload : Json := Json.obj [("success", Json.bool true), ("data", Json.arr [])]

def oFlaky : Nat → Except JsError Json := fun n =>
  match n with
  | 1 => Except.error err503
  | 2 => Except.error err503
  | _ => Except.ok okPayload

theorem requestWithRetry_linear_backoff_witness :
    requestWithRetry Json.null oFlaky =
      { result := Except.ok okPayload, attemptsMade := 3, delays := [1000, 2000] } :=
  (requestWithRetry_linear_backoff oFlaky Json.null 2 okPayload).1
    (by decide)
    (by
      intro j h1 h2
      have hj : j = 1 ∨ j = 2 := by omega
      rcases hj with rfl | rfl
      · exact ⟨err503, rfl, by decide⟩
      · exact ⟨err503, rfl, by decide⟩)
    rfl

/-- C5: `handleResponse` returns the parsed payload unchanged on ok responses
(null when the body failed to parse, never raising for that alone), and on
every non-ok response raises an error whose status is the HTTP status, whose
code defaults to UNKNOWN_ERROR and message to "HTTP status" when the body
supplies none, and which carries the raw payload. -/
theorem handleResponse_contract (r : HttpResponse) (j : Json) :
    (r.ok = true → r.body = some j → API.handleResponse r = Except.ok j) ∧
    (r.ok = true → r.body = none → API.handleResponse r = Except.ok Json.null) ∧
    (r.ok = false → ∃ err, API.handleResponse r = Except.error err ∧
      err.status = some r.status ∧
      err.data = some (r.body.getD Json.null) ∧
      (jget (r.body.getD Json.null) "code" = none →
        err.code = some (Json.str "UNKNOWN_ERROR")) ∧
      (jget (r.body.getD Json.null) "message" = none →
        err.message = Json.str ("HTTP " ++ toString r.status))) := by
  refine ⟨?_, ?_, ?_⟩
  · intro hok hbody
    simp [API.handleResponse, hok, hbody]
  · intro hok hbody
    simp [API.handleResponse, hok, hbody]
  · intro hok
    simp only [API.handleResponse, hok, Bool.false_eq_true, if_false]
    refine ⟨_, rfl, rfl, rfl, ?_, ?_⟩
    · intro hc
      simp [jsOr, hc]
    · intro hm
      simp [jsOr, hm]

/-- Concrete responses exercising `handleResponse`. -/
def okResp200 : HttpResponse :=
  { ok := true, status := 200, body := some (Json.obj [("success", Json.bool true)]) }

def badResp404 : HttpResponse := { ok := false, status := 404, body := none }

/-- Witness for C5 at concrete responses: an ok response returns its payload
unchanged, and a 404 with an unparseable body raises a structured error. -/
theorem handleResponse_contract_witness :
    API.handleResponse okResp200 = Except.ok (Json.obj [("success", Json.bool true)]) ∧
    (∃ err, API.handleResponse badResp404 = Except.error err ∧
      err.status = some badResp404.status ∧
      err.data = some (badResp404.body.getD Json.null) ∧
      (jget (badResp404.body.getD Json.null) "code" = none →
        err.code = some (Json.str "UNKNOWN_ERROR")) ∧
      (jget (badResp404.body.getD Json.null) "message" = none →
        err.message = Json.str ("HTTP " ++ toString badResp404.status))) :=
  ⟨(handleResponse_contract okResp200 (Json.obj [("success", Json.bool true)])).1 rfl rfl,
   (handleResponse_contract badResp404 Json.null).2.2 rfl⟩

/-- Headers carry the CSRF token header. -/
def hasTokenHeader (hs : List (String × String)) : Bool :=
  hs.any (fun p => p.1 == "X-CSRF-Token")

/-- A truthy CSRF token is discoverable: the cookie regex matches, or it
fails and the meta tag is present with non-empty content. -/
def csrfDiscoverable (env : Env) : Prop :=
  API.scanCsrf env.cookie.data ≠ none ∨
    (API.scanCsrf env.cookie.data = none ∧ ∃ t, env.metaCSRF = some t ∧ t ≠ "")

theorem scanCsrf_ne_nil (l : List Char) (t : List Char)
    (h : API.scanCsrf l = some t) : t ≠ [] := by
  induction l with
  | nil => simp [API.scanCsrf] at h
  | cons c rest ih =>
    simp only [API.scanCsrf] at h
    split_ifs at h with h1 h2
    · exact ih h
    · injection h with h3
      rw [← h3]
      exact h2
    · exact ih h

theorem getHeaders_token (env : Env) :
    (hasTokenHeader (API.getHeaders env true) = true ↔ csrfDiscoverable env) ∧
    hasTokenHeader (API.getHeaders env false) = false := by
  constructor
  · unfold API.getHeaders API.getCSRFToken
    cases hscan : API.scanCsrf env.cookie.data with
    | some tok =>
      have hne : tok ≠ [] := scanCsrf_ne_nil _ _ hscan
      have hne2 : String.mk tok ≠ "" := by
        intro hmk
        exact hne (by simpa using congrArg String.data hmk)
      simp [hne2, hasTokenHeader, csrfDiscoverable, hscan]
    | none =>
      cases hmeta : env.metaCSRF with
      | some t =>
        by_cases ht : t = ""
        · simp [hscan, hmeta, ht, hasTokenHeader, csrfDiscoverable]
        · simp [hscan, hmeta, ht, hasTokenHeader, csrfDiscoverable]
      | none => simp [hscan, hmeta, hasTokenHeader, csrfDiscoverable]
  · simp [API.getHeaders, hasTokenHeader]

/-- C6: a GET request never carries the X-CSRF-Token header, while POST, PUT
and DELETE carry it exactly when a truthy token is discoverable from the
csrf_token cookie or, failing that, the page meta tag. -/
theorem csrf_header_policy (env : Env) (origin endpoint : String) (opts data : Json) :
    hasTokenHeader (API.get env origin endpoint opts).headers = false ∧
    (hasTokenHeader (API.post env origin endpoint data opts).headers = true ↔
      csrfDiscoverable env) ∧
    (hasTokenHeader (API.put env origin endpoint data opts).headers = true ↔
      csrfDiscoverable env) ∧
    (hasTokenHeader (API.delete env origin endpoint opts).headers = true ↔
      csrfDiscoverable env) := by
  have h := getHeaders_token env
  exact ⟨h.2, h.1, h.1, h.1⟩

/-- Witness for C6 at a concrete environment: with a csrf_token cookie set,
GET omits the header and POST includes it. -/
theorem csrf_header_policy_witness :
    hasTokenHeader (API.get ⟨"csrf_token=abc123", none⟩ "https://example.com"
        "/gold/prices" Json.null).headers = false ∧
    hasTokenHeader (API.post ⟨"csrf_token=abc123", none⟩ "https://example.com"
        "/gold/prices" (Json.obj []) Json.null).headers = true :=
  ⟨(csrf_header_policy ⟨"csrf_token=abc123", none⟩ "https://example.com"
      "/gold/prices" Json.null (Json.obj [])).1,
   (csrf_header_policy ⟨"csrf_token=abc123", none⟩ "https://example.com"
      "/gold/prices" Json.null (Json.obj [])).2.1.mpr (Or.inl (by decide))⟩

theorem str_ext {s t : String} (h : s.data = t.data) : s = t := by
  cases s
  cases t
  exact congrArg String.mk h

/-- The claimed shape of `buildUrl` output: the fixed origin and API path,
then exactly one separating slash, then a remainder with no further leading
slash. -/
def oneSlashSeparated (origin endpoint : String) : Prop :=
  ∃ rest : String,
    API.buildUrl origin endpoint = origin ++ apiBasePath ++ "/" ++ rest ∧
    jsStartsWith rest "/" = false

/-- Counterexample to C7: for the endpoint "//x" (which starts with a slash,
so is passed through unchanged) the built URL puts two slashes between the
API path and the endpoint remainder, so it does not have the claimed
one-separating-slash shape. -/
theorem buildUrl_double_slash_counterexample :
    ¬ oneSlashSeparated "https://example.com" "//x" := by
  rintro ⟨rest, heq, hns⟩
  have hurl : API.buildUrl "https://example.com" "//x" =
      "https://example.com" ++ apiBasePath ++ "/" ++ "/x" := by decide
  rw [hurl] at heq
  have hd := congrArg String.data heq
  simp only [String.data_append] at hd
  have hrest : rest.data = ['/', 'x'] := (List.append_cancel_left hd).symm
  have : jsStartsWith rest "/" = true := by
    unfold jsStartsWith
    rw [hrest]
    decide
  rw [this] at hns
  exact Bool.noConfusion hns

/-- C7 amended: `buildUrl` returns origin, then the API path, then the
endpoint with a leading slash added exactly when it lacks one; consequently,
for every endpoint that does not begin with a double slash, the result is
the origin and API path followed by exactly one separating slash and a
remainder with no leading slash. -/
theorem buildUrl_one_slash_normalized (origin endpoint : String)
    (h : jsStartsWith endpoint "//" = false) :
    oneSlashSeparated origin endpoint := by
  unfold oneSlashSeparated
  by_cases hs : jsStartsWith endpoint "/" = true
  · obtain ⟨tl, htl⟩ : ∃ tl, endpoint.data = '/' :: tl := by
      unfold jsStartsWith at hs
      cases hd : endpoint.data with
      | nil =>
        rw [hd] at hs
        exact absurd hs (by decide)
      | cons c tl =>
        rw [hd] at hs
        rw [show ("/" : String).data = ['/'] from by decide] at hs
        simp only [List.isPrefixOf, List.isPrefixOf_nil_left, Bool.and_true] at hs
        exact ⟨tl, by rw [show c = '/' from (eq_of_beq hs).symm]⟩
    have htlns : jsStartsWith (String.mk tl) "/" = false := by
      unfold jsStartsWith at h ⊢
      rw [htl, show ("//" : String).data = ['/', '/'] from by decide] at h
      show List.isPrefixOf ("/" : String).data tl = false
      rw [show ("/" : String).data = ['/'] from by decide]
      simpa [List.isPrefixOf] using h
    refine ⟨String.mk tl, ?_, htlns⟩
    unfold API.buildUrl
    rw [if_pos hs]
    apply str_ext
    simp only [String.data_append]
    rw [htl]
    simp
  · have hs2 : jsStartsWith endpoint "/" = false := by
      cases hb : jsStartsWith endpoint "/"
      · rfl
      · exact absurd hb hs
    refine ⟨endpoint, ?_, hs2⟩
    unfold API.buildUrl
    rw [hs2]
    apply str_ext
    simp [String.data_append]

/-- Witness for the amended C7 at a concrete endpoint without a leading
slash: the separating slash is inserted. -/
theorem buildUrl_one_slash_normalized_witness :
    oneSlashSeparated "https://example.com" "gold/prices" :=
  buildUrl_one_slash_normalized "https://example.com" "gold/prices" (by decide)

/-- C9: when `requestWithRetry` dispatches to get or delete, the data
argument lands in the verb's options parameter position and the caller's
options object is never forwarded to the verb (so a GET's query parameters
are read from the data argument); the options object only determines the
attempt ceiling via its retryAttempts field. -/
theorem requestWithRetry_verb_arguments
    (env : Env) (origin : String) (net : Request → Nat → Except JsError Json)
    (endpoint : String) (data o1 o2 : Json) :
    (jget o1 "retryAttempts" = jget o2 "retryAttempts" →
      requestWithRetryFull env origin net Method.get endpoint data o1 =
        requestWithRetryFull env origin net Method.get endpoint data o2 ∧
      requestWithRetryFull env origin net Method.delete endpoint data o1 =
        requestWithRetryFull env origin net Method.delete endpoint data o2) ∧
    dispatchRequest env origin Method.get endpoint data o1 =
      API.get env origin endpoint data ∧
    dispatchRequest env origin Method.delete endpoint data o1 =
      API.delete env origin endpoint data ∧
    (dispatchRequest env origin Method.get endpoint data o1).query =
      jget data "params" := by
  refine ⟨?_, rfl, rfl, rfl⟩
  intro h
  have hmax : maxAttemptsOf o1 = maxAttemptsOf o2 := by
    unfold maxAttemptsOf
    rw [h]
  constructor
  · unfold requestWithRetryFull dispatchRequest
    rw [hmax]
  · unfold requestWithRetryFull dispatchRequest
    rw [hmax]

/-- Witness for C9: two options objects differing in their params but not in
retryAttempts produce identical GET retry behaviour. -/
theorem requestWithRetry_verb_arguments_witness :
    requestWithRetryFull ⟨"", none⟩ "https://example.com"
        (fun _ _ => Except.ok Json.null) Method.get "/gold/prices"
        (Json.obj []) (Json.obj [("params", Json.obj [("a", Json.num 1)])]) =
      requestWithRetryFull ⟨"", none⟩ "https://example.com"
        (fun _ _ => Except.ok Json.null) Method.get "/gold/prices"
        (Json.obj []) (Json.obj []) :=
  ((requestWithRetry_verb_arguments ⟨"", none⟩ "https://example.com"
      (fun _ _ => Except.ok Json.null) "/gold/prices" (Json.obj [])
      (Json.obj [("params", Json.obj [("a", Json.num 1)])]) (Json.obj [])).1 rfl).1

/-- C8: `stopAutoUpdate` is idempotent: after one call both timer handles are
cleared, and calling it again is a no-op.  As a total function it never
raises, matching the guarded `clearInterval` calls in the source. -/
theorem stopAutoUpdate_idempotent (s : AppState) :
    (GoldMarketApp.stopAutoUpdate s).updateInterval = none ∧
    (GoldMarketApp.stopAutoUpdate s).clockInterval = none ∧
    GoldMarketApp.stopAutoUpdate (GoldMarketApp.stopAutoUpdate s) =
      GoldMarketApp.stopAutoUpdate s := by
  unfold GoldMarketApp.stopAutoUpdate
  cases hu : s.updateInterval <;> cases hc : s.clockInterval <;> simp [hu, hc]

/-- C10: the gold and currency fetch helpers are atomic in their snapshot:
a rejected request or a falsy success flag leaves the state unchanged and
renders nothing, and only a truthy success flag replaces the snapshot and
re-renders the region. -/
theorem fetch_snapshot_atomic (s : AppState) (e : JsError) (resp : Json) :
    GoldMarketApp.fetchGoldPrices s (Except.error e) = (s, []) ∧
    (otruthy (jget resp "success") = false →
      GoldMarketApp.fetchGoldPrices s (Except.ok resp) = (s, [])) ∧
    (otruthy (jget resp "success") = true →
      GoldMarketApp.fetchGoldPrices s (Except.ok resp) =
        ({ s with goldPrices := jget resp "data" },
          [UIEvent.renderGold (jget resp "data")])) ∧
    GoldMarketApp.fetchCurrencyRates s (Except.error e) = (s, []) ∧
    (otruthy (jget resp "success") = false →
      GoldMarketApp.fetchCurrencyRates s (Except.ok resp) = (s, [])) ∧
    (otruthy (jget resp "success") = true →
      GoldMarketApp.fetchCurrencyRates s (Except.ok resp) =
        ({ s with currencyRates := jget resp "data" },
          [UIEvent.renderCurrency (jget resp "data")])) := by
  refine ⟨rfl, ?_, ?_, rfl, ?_, ?_⟩ <;> intro h <;>
    cases resp <;>
    simp_all [GoldMarketApp.fetchGoldPrices, GoldMarketApp.fetchCurrencyRates,
      jget, otruthy]

/-- Witness for C10: a payload with a truthy success flag replaces the gold
snapshot and renders the region from the fresh data. -/
theorem fetch_snapshot_atomic_witness :
    GoldMarketApp.fetchGoldPrices initialState
        (Except.ok (Json.obj [("success", Json.bool true), ("data", Json.arr [Json.num 7])])) =
      ({ initialState with goldPrices := some (Json.arr [Json.num 7]) },
        [UIEvent.renderGold (some (Json.arr [Json.num 7]))]) :=
  (fetch_snapshot_atomic initialState undefinedError
      (Json.obj [("success", Json.bool true), ("data", Json.arr [Json.num 7])])).2.2.1 rfl

theorem fetchGoldPrices_fields (s : AppState) (oc : Except JsError Json) :
    (GoldMarketApp.fetchGoldPrices s oc).1.updateInterval = s.updateInterval ∧
    (GoldMarketApp.fetchGoldPrices s oc).1.clockInterval = s.clockInterval ∧
    (GoldMarketApp.fetchGoldPrices s oc).1.marketStatus = s.marketStatus ∧
    (GoldMarketApp.fetchGoldPrices s oc).1.currencyRates = s.currencyRates := by
  cases oc with
  | error e => exact ⟨rfl, rfl, rfl, rfl⟩
  | ok resp =>
    cases resp <;> simp only [GoldMarketApp.fetchGoldPrices] <;>
      first
        | simp
        | (split <;> simp)

theorem fetchCurrencyRates_fields (s : AppState) (oc : Except JsError Json) :
    (GoldMarketApp.fetchCurrencyRates s oc).1.updateInterval = s.updateInterval ∧
    (GoldMarketApp.fetchCurrencyRates s oc).1.clockInterval = s.clockInterval ∧
    (GoldMarketApp.fetchCurrencyRates s oc).1.marketStatus = s.marketStatus ∧
    (GoldMarketApp.fetchCurrencyRates s oc).1.goldPrices = s.goldPrices := by
  cases oc with
  | error e => exact ⟨rfl, rfl, rfl, rfl⟩
  | ok resp =>
    cases resp <;> simp only [GoldMarketApp.fetchCurrencyRates] <;>
      first
        | simp
        | (split <;> simp)

theorem applyStore_fields (s : AppState) (r : Json) :
    (GoldMarketApp.applyStore s r).1.updateInterval = s.updateInterval ∧
    (GoldMarketApp.applyStore s r).1.clockInterval = s.clockInterval ∧
    (GoldMarketApp.applyStore s r).1.marketStatus = s.marketStatus := by
  unfold GoldMarketApp.applyStore
  split <;> exact ⟨rfl, rfl, rfl⟩

theorem applyMarket_fields (s : AppState) (r : Json) :
    (GoldMarketApp.applyMarket s r).1.updateInterval = s.updateInterval ∧
    (GoldMarketApp.applyMarket s r).1.clockInterval = s.clockInterval := by
  unfold GoldMarketApp.applyMarket
  split <;> exact ⟨rfl, rfl⟩

theorem applyStore_no_banner (m : String) (s : AppState) (r : Json) :
    UIEvent.showErrorBanner m ∉ (GoldMarketApp.applyStore s r).2 := by
  unfold GoldMarketApp.applyStore
  split <;> simp [GoldMarketApp.updateStoreInfo]

theorem applyMarket_no_banner (m : String) (s : AppState) (r : Json) :
    UIEvent.showErrorBanner m ∉ (GoldMarketApp.applyMarket s r).2 := by
  unfold GoldMarketApp.applyMarket
  split <;> simp [GoldMarketApp.updateMarketStatus]

theorem fetchGoldPrices_no_banner (m : String) (s : AppState) (oc : Except JsError Json) :
    UIEvent.showErrorBanner m ∉ (GoldMarketApp.fetchGoldPrices s oc).2 := by
  cases oc with
  | error e => simp [GoldMarketApp.fetchGoldPrices]
  | ok resp =>
    cases resp <;> simp only [GoldMarketApp.fetchGoldPrices] <;>
      first
        | simp
        | (split <;> simp)

theorem fetchCurrencyRates_no_banner (m : String) (s : AppState) (oc : Except JsError Json) :
    UIEvent.showErrorBanner m ∉ (GoldMarketApp.fetchCurrencyRates s oc).2 := by
  cases oc with
  | error e => simp [GoldMarketApp.fetchCurrencyRates]
  | ok resp =>
    cases resp <;> simp only [GoldMarketApp.fetchCurrencyRates] <;>
      first
        | simp
        | (split <;> simp)

theorem fetchGoldPrices_success_eq (s : AppState) (rg : Json)
    (h : otruthy (jget rg "success") = true) :
    GoldMarketApp.fetchGoldPrices s (Except.ok rg) =
      ({ s with goldPrices := jget rg "data" }, [UIEvent.renderGold (jget rg "data")]) := by
  cases rg <;> simp_all [GoldMarketApp.fetchGoldPrices, jget, otruthy]

theorem fetchCurrencyRates_success_eq (s : AppState) (rc : Json)
    (h : otruthy (jget rc "success") = true) :
    GoldMarketApp.fetchCurrencyRates s (Except.ok rc) =
      ({ s with currencyRates := jget rc "data" }, [UIEvent.renderCurrency (jget rc "data")]) := by
  cases rc <;> simp_all [GoldMarketApp.fetchCurrencyRates, jget, otruthy]

/-- The value of `fetchInitialData` on the path where both direct fetches
resolve with non-null payloads. -/
def initDataResolved (s : AppState) (rs rm : Json) (gd cu : Except JsError Json) :
    AppState × List UIEvent × Option JsError :=
  let step1 := GoldMarketApp.applyStore s rs
  let step2 := GoldMarketApp.applyMarket step1.1 rm
  let step3 := GoldMarketApp.fetchGoldPrices step2.1 gd
  let step4 := GoldMarketApp.fetchCurrencyRates step3.1 cu
  (step4.1, step1.2 ++ step2.2 ++ step3.2 ++ step4.2, none)

theorem fetchInitialData_store_error (s : AppState)
    (mkOut gd cu : Except JsError Json) (e : JsError) :
    GoldMarketApp.fetchInitialData s ⟨Except.error e, mkOut, gd, cu⟩ = (s, [], some e) := rfl

theorem fetchInitialData_market_error (s : AppState) (rs : Json)
    (gd cu : Except JsError Json) (e : JsError) (hstn : rs ≠ Json.null) :
    GoldMarketApp.fetchInitialData s ⟨Except.ok rs, Except.error e, gd, cu⟩ =
      ((GoldMarketApp.applyStore s rs).1, (GoldMarketApp.applyStore s rs).2, some e) := by
  cases rs <;> first | exact absurd rfl hstn | rfl

theorem fetchInitialData_resolves (s : AppState) (rs rm : Json)
    (gd cu : Except JsError Json) (hstn : rs ≠ Json.null) (hmkn : rm ≠ Json.null) :
    GoldMarketApp.fetchInitialData s ⟨Except.ok rs, Except.ok rm, gd, cu⟩ =
      initDataResolved s rs rm gd cu := by
  cases rs <;> cases rm <;>
    first
      | exact absurd rfl hstn
      | exact absurd rfl hmkn
      | rfl

theorem initDataResolved_no_banner (m : String) (s : AppState) (rs rm : Json)
    (gd cu : Except JsError Json) :
    UIEvent.showErrorBanner m ∉ (initDataResolved s rs rm gd cu).2.1 := by
  intro h
  simp only [initDataResolved, List.mem_append] at h
  rcases h with ((h | h) | h) | h
  · exact applyStore_no_banner m _ _ h
  · exact applyMarket_no_banner m _ _ h
  · exact fetchGoldPrices_no_banner m _ _ h
  · exact fetchCurrencyRates_no_banner m _ _ h

/-- Concrete outcomes for the initial load: store and market succeed, the
gold prices request rejects with a network failure, currency succeeds. -/
def netFailure : JsError :=
  { message := Json.str "Failed to fetch", status := none, code := none, data := none }

def storeRespOk : Json :=
  Json.obj [("success", Json.bool true), ("data", Json.obj [("name", Json.str "ELAM")])]

def marketRespOk : Json :=
  Json.obj [("success", Json.bool true), ("data", Json.obj [("isOpen", Json.bool true)])]

def currencyRespOk : Json :=
  Json.obj [("success", Json.bool true), ("data", Json.arr [])]

/-- Counterexample to C1: when the gold prices fetch fails during the
initial load, initialization does not abort and no error banner is shown:
`fetchGoldPrices` swallows the rejection, `init` completes, and the
auto-update timer is started (a partial-Ready state). -/
theorem init_swallows_gold_failure :
    (GoldMarketApp.init initialState 1 2
        ⟨Except.ok storeRespOk, Except.ok marketRespOk,
          Except.error netFailure, Except.ok currencyRespOk⟩).1.updateInterval = some 2 ∧
    UIEvent.showErrorBanner initFailureMsg ∉
      (GoldMarketApp.init initialState 1 2
        ⟨Except.ok storeRespOk, Except.ok marketRespOk,
          Except.error netFailure, Except.ok currencyRespOk⟩).2 := by
  constructor
  · rfl
  · intro hmem
    have hev : (GoldMarketApp.init initialState 1 2
        ⟨Except.ok storeRespOk, Except.ok marketRespOk,
          Except.error netFailure, Except.ok currencyRespOk⟩).2 =
        [UIEvent.updateClockDisplay,
          UIEvent.renderStore (some (Json.obj [("name", Json.str "ELAM")])),
          UIEvent.renderMarket (some (Json.obj [("isOpen", Json.bool true)])),
          UIEvent.renderCurrency (some (Json.arr [])),
          UIEvent.renderGold (some (Json.arr [])),
          UIEvent.renderCurrency (some (Json.arr []))] := rfl
    rw [hev] at hmem
    simp at hmem

/-- C1 amended: a failure of the store-info or market-status fetch (the two
awaited directly inside the try block) aborts initialization with the single
blocking error banner and the auto-update timer is never started; but when
both of those resolve with non-null payloads, initialization always reaches
the Ready state (timer started, no banner), regardless of the outcomes of
the gold and currency fetches, whose failures are swallowed by their own
handlers. -/
theorem init_failure_semantics (s : AppState) (cid uid : Nat)
    (stOut mkOut gd cu : Except JsError Json) (e : JsError) (rs rm : Json) :
    (stOut = Except.error e →
      UIEvent.showErrorBanner initFailureMsg ∈
        (GoldMarketApp.init s cid uid ⟨stOut, mkOut, gd, cu⟩).2 ∧
      (GoldMarketApp.init s cid uid ⟨stOut, mkOut, gd, cu⟩).1.updateInterval =
        s.updateInterval) ∧
    (stOut = Except.ok rs → rs ≠ Json.null → mkOut = Except.error e →
      UIEvent.showErrorBanner initFailureMsg ∈
        (GoldMarketApp.init s cid uid ⟨stOut, mkOut, gd, cu⟩).2 ∧
      (GoldMarketApp.init s cid uid ⟨stOut, mkOut, gd, cu⟩).1.updateInterval =
        s.updateInterval) ∧
    (stOut = Except.ok rs → rs ≠ Json.null → mkOut = Except.ok rm → rm ≠ Json.null →
      UIEvent.showErrorBanner initFailureMsg ∉
        (GoldMarketApp.init s cid uid ⟨stOut, mkOut, gd, cu⟩).2 ∧
      (GoldMarketApp.init s cid uid ⟨stOut, mkOut, gd, cu⟩).1.updateInterval =
        some uid) := by
  refine ⟨?_, ?_, ?_⟩
  · intro hst
    subst hst
    simp only [GoldMarketApp.init, fetchInitialData_store_error]
    simp
  · intro hst hstn hmk
    subst hst
    subst hmk
    simp only [GoldMarketApp.init, fetchInitialData_market_error _ _ _ _ _ hstn]
    constructor
    · simp
    · exact (applyStore_fields _ _).1
  · intro hst hstn hmk hmkn
    subst hst
    subst hmk
    simp only [GoldMarketApp.init, fetchInitialData_resolves _ _ _ _ _ hstn hmkn]
    constructor
    · intro hmem
      rcases List.mem_cons.mp hmem with h | h
      · exact UIEvent.noConfusion h
      · rcases List.mem_append.mp h with h | h
        · exact initDataResolved_no_banner _ _ _ _ _ _ h
        · simp at h
    · rfl

/-- Witness for the amended C1: a store-info network failure aborts with the
banner and without starting the auto-update timer. -/
theorem init_failure_semantics_witness :
    UIEvent.showErrorBanner initFailureMsg ∈
      (GoldMarketApp.init initialState 1 2
        ⟨Except.error netFailure, Except.ok marketRespOk,
          Except.ok (Json.obj []), Except.ok (Json.obj [])⟩).2 ∧
    (GoldMarketApp.init initialState 1 2
        ⟨Except.error netFailure, Except.ok marketRespOk,
          Except.ok (Json.obj []), Except.ok (Json.obj [])⟩).1.updateInterval =
      initialState.updateInterval :=
  (init_failure_semantics initialState 1 2 (Except.error netFailure)
      (Except.ok marketRespOk) (Except.ok (Json.obj [])) (Except.ok (Json.obj []))
      netFailure Json.null Json.null).1 rfl

/-- Concrete ready state and fresh tick outcomes for the refresh claims. -/
def staleStatus : Json := Json.obj [("isOpen", Json.bool false)]

def sReady : AppState :=
  { goldPrices := some (Json.arr [])
    currencyRates := some (Json.arr [])
    storeInfo := some (Json.obj [])
    marketStatus := some staleStatus
    updateInterval := some 2
    clockInterval := some 1 }

def goldRespFresh : Json :=
  Json.obj [("success", Json.bool true), ("data", Json.arr [Json.num 24])]

def currencyRespFresh : Json :=
  Json.obj [("success", Json.bool true), ("data", Json.arr [Json.num 36])]

/-- Counterexample to C4: on a periodic refresh tick the market status is
not re-fetched: the tick consumes only gold and currency outcomes, leaves
the stored market snapshot unchanged, and re-renders the indicator from that
previously stored snapshot. -/
theorem refresh_market_not_refetched :
    (GoldMarketApp.refreshTick sReady (Except.ok goldRespFresh)
        (Except.ok currencyRespFresh)).1.marketStatus = some staleStatus ∧
    UIEvent.renderMarket (some staleStatus) ∈
      (GoldMarketApp.refreshTick sReady (Except.ok goldRespFresh)
        (Except.ok currencyRespFresh)).2 := by
  constructor
  · rfl
  · have hev : (GoldMarketApp.refreshTick sReady (Except.ok goldRespFresh)
        (Except.ok currencyRespFresh)).2 =
        [UIEvent.renderGold (some (Json.arr [Json.num 24])),
          UIEvent.renderCurrency (some (Json.arr [Json.num 36])),
          UIEvent.renderMarket (some staleStatus)] := rfl
    rw [hev]
    simp

/-- C4 amended: every refresh tick re-fetches gold prices and currency rates
and re-renders those regions from the freshly fetched snapshot when the
payload's success flag is truthy, but market status is only re-rendered from
the previously stored snapshot, which the tick never changes. -/
theorem refresh_rerenders_market_from_snapshot (s : AppState)
    (g c : Except JsError Json) :
    (GoldMarketApp.refreshTick s g c).1.marketStatus = s.marketStatus ∧
    UIEvent.renderMarket s.marketStatus ∈ (GoldMarketApp.refreshTick s g c).2 ∧
    (∀ rg, g = Except.ok rg → otruthy (jget rg "success") = true →
      UIEvent.renderGold (jget rg "data") ∈ (GoldMarketApp.refreshTick s g c).2 ∧
      (GoldMarketApp.refreshTick s g c).1.goldPrices = jget rg "data") ∧
    (∀ rc, c = Except.ok rc → otruthy (jget rc "success") = true →
      UIEvent.renderCurrency (jget rc "data") ∈ (GoldMarketApp.refreshTick s g c).2 ∧
      (GoldMarketApp.refreshTick s g c).1.currencyRates = jget rc "data") := by
  have hmk : (GoldMarketApp.refreshTick s g c).1.marketStatus = s.marketStatus := by
    simp only [GoldMarketApp.refreshTick, GoldMarketApp.updateMarketStatus]
    rw [(fetchCurrencyRates_fields _ _).2.2.1, (fetchGoldPrices_fields _ _).2.2.1]
  refine ⟨hmk, ?_, ?_, ?_⟩
  · have hmk2 : (GoldMarketApp.fetchCurrencyRates
        (GoldMarketApp.fetchGoldPrices s g).1 c).1.marketStatus = s.marketStatus := by
      rw [(fetchCurrencyRates_fields _ _).2.2.1, (fetchGoldPrices_fields _ _).2.2.1]
    simp only [GoldMarketApp.refreshTick, GoldMarketApp.updateMarketStatus, hmk2]
    simp
  · intro rg hg ht
    subst hg
    simp only [GoldMarketApp.refreshTick, GoldMarketApp.updateMarketStatus,
      fetchGoldPrices_success_eq _ _ ht]
    constructor
    · simp
    · rw [(fetchCurrencyRates_fields _ _).2.2.2]
  · intro rc hc ht
    subst hc
    simp only [GoldMarketApp.refreshTick, GoldMarketApp.updateMarketStatus,
      fetchCurrencyRates_success_eq _ _ ht]
    constructor
    · simp
    · trivial

/-- Witness for the amended C4: on a concrete tick with fresh gold data, the
gold region is re-rendered from the freshly fetched snapshot. -/
theorem refresh_rerenders_market_from_snapshot_witness :
    UIEvent.renderGold (some (Json.arr [Json.num 24])) ∈
      (GoldMarketApp.refreshTick sReady (Except.ok goldRespFresh)
        (Except.ok currencyRespFresh)).2 ∧
    (GoldMarketApp.refreshTick sReady (Except.ok goldRespFresh)
        (Except.ok currencyRespFresh)).1.goldPrices = some (Json.arr [Json.num 24]) :=
  (refresh_rerenders_market_from_snapshot sReady (Except.ok goldRespFresh)
      (Except.ok currencyRespFresh)).2.2.1 goldRespFresh rfl rfl
